import Mathlib

/-!
Verification of the wasmexec filesystem syscall bridge (`fs.go`).

The Go source is shallowly embedded: machine integers become `Nat`/`Int`
(`fs.FileMode` is a `uint32`, sizes and times are `int64`, so Go's truncating
division is `Int.tdiv`), the dynamically typed JS-like value model becomes the
inductive `JSValue`, Go `error` chains become the inductive `GoError`, and the
side effects of a bridge function (diagnostic-sink messages and callback
invocations) are recorded in an explicit `BridgeResult` trace.
-/

namespace Wasmexec

/-! ### The JS-like value model

Go side: `*jsString`, `int`, `*jsFunction` (with the shared `funcTrue` /
`funcFalse` singletons represented by `boolFn`), `*jsObject` (a property bag),
`[]any` argument/return vectors (`arr`), and `nil` (`null`). -/

inductive JSValue where
  | null : JSValue
  | str : String → JSValue
  | int : Int → JSValue
  | boolFn : Bool → JSValue
  | fn : Nat → JSValue
  | obj : List (String × JSValue) → JSValue
  | arr : List JSValue → JSValue

/-- Function `jsBoolFunc` from fs.go: returns the shared `funcTrue`/`funcFalse`
singleton function value for a boolean. -/
def jsBoolFunc (b : Bool) : JSValue := JSValue.boolFn b

/-- Go's `%T` formatting of a dynamically typed argument, as used in the
bridge functions' diagnostic messages. -/
def goTypeName : JSValue → String
  | JSValue.null => "<nil>"
  | JSValue.str _ => "*wasmexec.jsString"
  | JSValue.int _ => "int"
  | JSValue.boolFn _ => "*wasmexec.jsFunction"
  | JSValue.fn _ => "*wasmexec.jsFunction"
  | JSValue.obj _ => "*wasmexec.jsObject"
  | JSValue.arr _ => "[]interface"

/-- The runtime type test `args[i].(*jsFunction)`: both guest callbacks and
the shared boolean singletons are `*jsFunction` values. -/
def isJSFunction : JSValue → Bool
  | JSValue.fn _ => true
  | JSValue.boolFn _ => true
  | _ => false

/-! ### Go errors

`GoError` models the dynamically typed Go `error` values reaching
`fsErrorResponse`: a `syscall.Errno`, the `fs.ErrNotExist` sentinel, a plain
`errors.New`-style leaf, an `*fs.PathError`, and a `fmt.Errorf("...: %w", e)`
wrapper. -/

inductive GoError where
  | errno : Nat → GoError
  | sentinelNotExist : GoError
  | message : String → GoError
  | pathErr : String → String → GoError → GoError
  | wrapped : String → GoError → GoError
deriving DecidableEq

/-- Model of `syscall.Errno.Error()`: the host error-string table (Go stdlib).  Only
the entries exercised here are spelled out; the default case keeps the model
total and injective enough for the fallback-message claims. -/
def errnoString (n : Nat) : String :=
  if n = 1 then "operation not permitted"
  else if n = 2 then "no such file or directory"
  else if n = 13 then "permission denied"
  else "errno " ++ toString n

/-- Model of `err.Error()` over the modelled error shapes (Go stdlib behaviour:
`*fs.PathError` prints `op + " " + path + ": " + inner`, a `fmt.Errorf`
wrapper prints its format text followed by the wrapped error). -/
def GoError.errString : GoError → String
  | GoError.errno n => errnoString n
  | GoError.sentinelNotExist => "file does not exist"
  | GoError.message s => s
  | GoError.pathErr op path inner => op ++ " " ++ path ++ ": " ++ inner.errString
  | GoError.wrapped msg inner => msg ++ ": " ++ inner.errString

/-- Model of `errors.Unwrap` (Go stdlib): only `*fs.PathError` and `fmt.Errorf`
wrappers implement `Unwrap`; leaves return `nil`. -/
def errUnwrap : GoError → Option GoError
  | GoError.pathErr _ _ inner => some inner
  | GoError.wrapped _ inner => some inner
  | _ => none

/-- Model of `os.underlyingError` (Go stdlib): strips exactly one `*fs.PathError`
layer; every other shape is returned unchanged. -/
def underlyingError : GoError → GoError
  | GoError.pathErr _ _ inner => inner
  | e => e

/-- Model of `os.IsNotExist` (Go stdlib): after the one-level `underlyingError` strip,
the error must be the `ErrNotExist` sentinel itself or `syscall.Errno(ENOENT)`
(`Errno.Is(ErrNotExist)` accepts exactly `ENOENT`).  It does not walk
`fmt.Errorf` wrapper chains. -/
def osIsNotExist (e : GoError) : Bool :=
  match underlyingError e with
  | GoError.sentinelNotExist => true
  | GoError.errno n => n = 2
  | _ => false

/-- The type assertion `err.(syscall.Errno)` with a discarded `ok`: a
non-errno error yields the zero value `0`. -/
def errnoCast : GoError → Nat
  | GoError.errno n => n
  | _ => 0

/-- Modelled from the spec: the repository's `errno` string type, the
`eNOENT` constant and the `errorResponse` helper live outside the excerpted
source.  Per §3 (ErrorResponse) and §4.2, an ErrorResponse is a single-element
sequence containing a property bag whose `error` field holds the canonical
errno symbol. -/
def errorResponse (sym : String) : List JSValue :=
  [JSValue.obj [("error", JSValue.str sym)]]

/-- Modelled from the spec: the canonical `ENOENT` errno symbol constant. -/
def eNOENT : String := "ENOENT"

/-- Modelled from the spec: the Errno/Error Translator "maps POSIX errno
identifiers to/from symbolic names" (§2, §4.2 step 3), so the composite
`errorResponse(errno(errnoErr.Error()))` of the source is modelled as emitting
the errno's canonical symbolic name. -/
def errnoSymbol (n : Nat) : String :=
  if n = 1 then "EPERM"
  else if n = 2 then "ENOENT"
  else if n = 13 then "EACCES"
  else if n = 17 then "EEXIST"
  else if n = 38 then "ENOSYS"
  else "E" ++ toString n

/-- Function `fsErrorResponse` from fs.go: the not-found check, the single
`errors.Unwrap` level, the errno type assertion against zero, and the generic
message fallback, in source order. -/
def fsErrorResponse (err : GoError) : List JSValue :=
  if osIsNotExist err then errorResponse eNOENT
  else
    let e := (errUnwrap err).getD err
    let errnoErr := errnoCast e
    if errnoErr ≠ 0 then errorResponse (errnoSymbol errnoErr)
    else [JSValue.obj [("error", JSValue.str e.errString)]]

/-! ### File modes

Constants from Go's `io/fs` (`FileMode` bit layout) and `syscall`
(`S_IF*` values, identical across the unix targets this host layer runs on). -/

def ModeDir : Nat := 2 ^ 31
def ModeSymlink : Nat := 2 ^ 27
def ModeDevice : Nat := 2 ^ 26
def ModeNamedPipe : Nat := 2 ^ 25
def ModeSocket : Nat := 2 ^ 24
def ModeCharDevice : Nat := 2 ^ 21
def ModeIrregular : Nat := 2 ^ 19

/-- Constant `fs.ModeType`: the union of all type bits. -/
def ModeType : Nat :=
  ModeDir ||| ModeSymlink ||| ModeNamedPipe ||| ModeSocket ||| ModeDevice |||
    ModeCharDevice ||| ModeIrregular

def S_IFDIR : Nat := 0x4000
def S_IFCHR : Nat := 0x2000
def S_IFIFO : Nat := 0x1000
def S_IFLNK : Nat := 0xA000
def S_IFSOCK : Nat := 0xC000

/-- Method `fs.FileMode.IsDir` (Go stdlib): `m & ModeDir != 0`. -/
def fileModeIsDir (m : Nat) : Bool := m &&& ModeDir ≠ 0

/-- Method `fs.FileMode.IsRegular` (Go stdlib): `m & ModeType == 0`. -/
def fileModeIsRegular (m : Nat) : Bool := m &&& ModeType = 0

/-- Map `modeBitTranslation` from fs.go, as the list of (Go bit, JS bit) pairs of
the Go map literal.  Go map iteration order is unspecified; `jsModeWith` below
is parametric in the visit order and `jsMode` fixes the literal order. -/
def modeBitTranslation : List (Nat × Nat) :=
  [(ModeDir, S_IFDIR), (ModeCharDevice, S_IFCHR), (ModeNamedPipe, S_IFIFO),
   (ModeSymlink, S_IFLNK), (ModeSocket, S_IFSOCK)]

/-- One loop iteration of `jsMode`: `if mode&goBit == goBit { mode = mode &
^goBit | jsBit }`.  `^goBit` on a `uint32` is XOR against the 32-bit all-ones
mask. -/
def jsModeStep (m : Nat) (e : Nat × Nat) : Nat :=
  if m &&& e.1 = e.1 then (m &&& (0xFFFFFFFF ^^^ e.1)) ||| e.2 else m

/-- The `jsMode` loop over a given visit order of the translation table. -/
def jsModeWith (entries : List (Nat × Nat)) (m : Nat) : Nat :=
  entries.foldl jsModeStep m

/-- Function `jsMode` from fs.go (table in source literal order). -/
def jsMode (m : Nat) : Nat := jsModeWith modeBitTranslation m

/-- The go-bit mask matched by a mode, over a given visit order. -/
def gMaskW (entries : List (Nat × Nat)) (m : Nat) : Nat :=
  entries.foldl (fun a e => if m &&& e.1 = e.1 then a ||| e.1 else a) 0

/-- The JS replacement bits of the matched entries, over a given visit order. -/
def jBitsW (entries : List (Nat × Nat)) (m : Nat) : Nat :=
  entries.foldl (fun a e => if m &&& e.1 = e.1 then a ||| e.2 else a) 0

/-- The spec's description of the translation (§4.3 `mode`, §8): every
recognized type bit is rewritten to its POSIX `S_IF*` equivalent and all other
bits pass through unchanged. -/
def jsModeSpecVal (m : Nat) : Nat :=
  (m &&& (0xFFFFFFFF ^^^ gMaskW modeBitTranslation m)) ||| jBitsW modeBitTranslation m

/-! ### Stat projection -/

/-- Function `blockCount` from fs.go (`int64` arithmetic: Go `/` and `%` truncate
toward zero, hence `Int.tdiv`/`Int.tmod`). -/
def blockCount (size blockSize : Int) : Int :=
  let blocks := size.tdiv blockSize
  if size.tmod blockSize > 0 then blocks + 1 else blocks

/-- An `fs.FileInfo`: the fields `jsStat` reads.  `isDir` is the interface
method `IsDir()`, kept as a separate field because an implementation may
answer it independently of `Mode()`; well-formed infos satisfy
`isDir = fileModeIsDir mode`. -/
structure FileInfo where
  size : Int
  mode : Nat
  modTimeUnixNano : Int
  isDir : Bool
deriving DecidableEq

/-- The `const blockSize = 4096` of `jsStat`. -/
def statBlockSize : Int := 4096

/-- The property bag built by `jsStat` for a non-nil `FileInfo`, fields in
source order.  `modTime` is `info.ModTime().UnixNano() / 1e6` (`int64`
division, truncating toward zero). -/
def jsStatProps (info : FileInfo) : List (String × JSValue) :=
  let modTime : Int := info.modTimeUnixNano.tdiv 1000000
  [("dev", JSValue.int 0),
   ("ino", JSValue.int 0),
   ("mode", JSValue.int (jsMode info.mode)),
   ("nlink", JSValue.int 1),
   ("uid", JSValue.int 0),
   ("gid", JSValue.int 0),
   ("rdev", JSValue.int 0),
   ("size", JSValue.int info.size),
   ("blksize", JSValue.int statBlockSize),
   ("blocks", JSValue.int (blockCount info.size statBlockSize)),
   ("atimeMs", JSValue.int modTime),
   ("mtimeMs", JSValue.int modTime),
   ("ctimeMs", JSValue.int modTime),
   ("isBlockDevice", jsBoolFunc false),
   ("isCharacterDevice", jsBoolFunc false),
   ("isDirectory", jsBoolFunc info.isDir),
   ("isFIFO", jsBoolFunc false),
   ("isFile", jsBoolFunc (fileModeIsRegular info.mode)),
   ("isSocket", jsBoolFunc false),
   ("isSymbolicLink", jsBoolFunc (info.mode &&& ModeSymlink = ModeSymlink))]

/-- Function `jsStat` from fs.go: `nil` metadata yields `nil`, otherwise the property
bag above. -/
def jsStat : Option FileInfo → Option JSValue
  | none => none
  | some info => some (JSValue.obj (jsStatProps info))

/-- Field-name lookup in a property bag. -/
def getProp (props : List (String × JSValue)) (name : String) : Option JSValue :=
  (props.find? (fun p => p.1 = name)).map Prod.snd

/-! ### The syscall bridge functions -/

/-- The injected `HostFS` filesystem abstraction.  `stat` returns the Go pair
`(FileInfo, error)`; `chmod` returns the Go `error`. -/
structure HostFSModel where
  chmod : String → Nat → Option GoError
  stat : String → Option FileInfo × Option GoError

/-- Go's `fs.FileMode(mode)` conversion of an `int` argument: the low 32 bits
of the two's-complement value. -/
def u32ofInt (i : Int) : Nat := (i.emod (2 ^ 32)).toNat

/-- Observable outcome of one bridge-function invocation: the host function's
return value, the diagnostic-sink (`mod.error`) messages in order, and the
callback invocations with their argument vectors in order. -/
structure BridgeResult where
  ret : JSValue
  errs : List String
  calls : List (List JSValue)

/-- The callable returned by `fsChmod` for a non-nil `HostFS`, as a function
from the argument vector to its observable outcome.  Mirrors fs.go line by
line: arity check, `*jsString` / `int` / `*jsFunction` assertions in order
(each failure reports once and aborts), then `hostFS.Chmod`; on error the
response is built, reported, and returned; on success the callback is invoked
once with `[nil]`. -/
def fsChmodFn (hfs : HostFSModel) (args : List JSValue) : BridgeResult :=
  match args with
  | [a0, a1, a2] =>
    match a0 with
    | JSValue.str fpath =>
      match a1 with
      | JSValue.int mode =>
        if isJSFunction a2 then
          match hfs.chmod fpath (u32ofInt mode) with
          | some err =>
            ⟨JSValue.arr (fsErrorResponse err), ["fs.chmod: " ++ err.errString], []⟩
          | none => ⟨JSValue.null, [], [[JSValue.null]]⟩
        else ⟨JSValue.null, ["fs.chmod: " ++ goTypeName a2 ++ ": not type jsFunction"], []⟩
      | _ => ⟨JSValue.null, ["fs.chmod: " ++ goTypeName a1 ++ ": not type int"], []⟩
    | _ => ⟨JSValue.null, ["fs.chmod: " ++ goTypeName a0 ++ ": not type string"], []⟩
  | _ =>
    ⟨JSValue.null, ["fs.chmod: " ++ toString args.length ++ ": invalid number of arguments"], []⟩

/-- The callable returned by `fsStat` for a non-nil `HostFS`.  Mirrors fs.go:
arity and type checks, then `hostFS.Stat`; on error the response is returned
with no sink message (the `mod.error` call is commented out in the source) and
no callback; on success the callback is invoked once with the projected stat
object (a nil `*jsObject` crosses as a null argument).  The type-mismatch
message for the callback argument says `fs.chmod` in the source. -/
def fsStatFn (hfs : HostFSModel) (args : List JSValue) : BridgeResult :=
  match args with
  | [a0, a1] =>
    match a0 with
    | JSValue.str fpath =>
      if isJSFunction a1 then
        match (hfs.stat fpath).2 with
        | some err => ⟨JSValue.arr (fsErrorResponse err), [], []⟩
        | none => ⟨JSValue.null, [], [[(jsStat (hfs.stat fpath).1).getD JSValue.null]]⟩
      else ⟨JSValue.null, ["fs.chmod: " ++ goTypeName a1 ++ ": not type jsFunction"], []⟩
    | _ => ⟨JSValue.null, ["fs.stat: " ++ goTypeName a0 ++ ": not type string"], []⟩
  | _ =>
    ⟨JSValue.null, ["fs.stat: " ++ toString args.length ++ ": invalid number of arguments"], []⟩

/-- A chmod argument vector that passes validation: string path, int mode,
callable callback. -/
def validChmodArgs (args : List JSValue) : Prop :=
  ∃ p m cb, args = [JSValue.str p, JSValue.int m, cb] ∧ isJSFunction cb = true

/-- A stat argument vector that passes validation: string path, callable
callback. -/
def validStatArgs (args : List JSValue) : Prop :=
  ∃ p cb, args = [JSValue.str p, cb] ∧ isJSFunction cb = true

/-- A host filesystem that accepts every operation (stat answers with a fixed
regular file). -/
def okFS : HostFSModel :=
  ⟨fun _ _ => none, fun _ => (some ⟨10, 0o644, 1700000000000000000, false⟩, none)⟩

/-- A host filesystem that fails every operation with `EPERM`. -/
def permFS : HostFSModel :=
  ⟨fun _ _ => some (GoError.errno 1), fun _ => (none, some (GoError.errno 1))⟩

/-- Shape of one translation-table entry: a nonzero go bit and a JS
replacement, both 32-bit, with the replacement disjoint from the go bit. -/
def entryOK (e : Nat × Nat) : Prop :=
  0 < e.1 ∧ e.1 < 2 ^ 32 ∧ e.2 < 2 ^ 32 ∧ e.2 &&& e.1 = 0

/-- Pairwise shape of a translation table: every entry is `entryOK`, go bits
of distinct entries are disjoint, and no JS replacement overlaps any go bit. -/
def tableOK : List (Nat × Nat) → Prop
  | [] => True
  | e :: t =>
      entryOK e ∧ (∀ e' ∈ t, e.1 &&& e'.1 = 0 ∧ e.2 &&& e'.1 = 0 ∧ e'.2 &&& e.1 = 0) ∧
        tableOK t

/-- The fixed field-name vocabulary of a stat property bag, in source order. -/
def statFieldNames : List String :=
  ["dev", "ino", "mode", "nlink", "uid", "gid", "rdev", "size", "blksize", "blocks",
   "atimeMs", "mtimeMs", "ctimeMs", "isBlockDevice", "isCharacterDevice", "isDirectory",
   "isFIFO", "isFile", "isSocket", "isSymbolicLink"]

/-- Generic accumulator of `gMaskW`/`jBitsW`: OR together `sel e` over the
entries of `l` matched by `m`. -/
def selFold (sel : Nat × Nat → Nat) (m : Nat) (l : List (Nat × Nat)) (a : Nat) : Nat :=
  l.foldl (fun a e => if m &&& e.1 = e.1 then a ||| sel e else a) a

/-! ## Theorems -/

/-! ### Bitwise helper lemmas (32-bit masks as plain `Nat`) -/

theorem and_or_right (a b c : Nat) : (a ||| b) &&& c = a &&& c ||| b &&& c := by
  apply Nat.eq_of_testBit_eq; intro i
  simp only [Nat.testBit_land, Nat.testBit_lor, Bool.and_or_distrib_right]

theorem and_or_left (a b c : Nat) : a &&& (b ||| c) = a &&& b ||| a &&& c := by
  rw [Nat.and_comm, and_or_right, Nat.and_comm b a, Nat.and_comm c a]

theorem testBit_high (x i : Nat) (hx : x < 2 ^ 32) (hi : 32 ≤ i) : x.testBit i = false :=
  Nat.testBit_eq_false_of_lt (lt_of_lt_of_le hx (Nat.pow_le_pow_right (by norm_num) hi))

theorem testBit_mask32 (i : Nat) : (0xFFFFFFFF : Nat).testBit i = decide (i < 32) := by
  have e : (0xFFFFFFFF : Nat) = 2 ^ 32 - 1 := by norm_num
  rw [e, Nat.testBit_two_pow_sub_one]

theorem testBit_of_and_eq_zero {x g : Nat} (h : x &&& g = 0) (i : Nat)
    (hx : x.testBit i = true) : g.testBit i = false := by
  have hb := congrArg (fun t => Nat.testBit t i) h
  simp only [Nat.testBit_land, Nat.zero_testBit, hx, Bool.true_and] at hb
  exact hb

theorem and_compl_of_disjoint (x g : Nat) (hx : x < 2 ^ 32) (h : x &&& g = 0) :
    x &&& (0xFFFFFFFF ^^^ g) = x := by
  apply Nat.eq_of_testBit_eq; intro i
  simp only [Nat.testBit_land, Nat.testBit_xor, testBit_mask32]
  cases hxi : x.testBit i with
  | false => simp
  | true =>
    have hi : i < 32 := by
      by_contra hge
      rw [testBit_high x i hx (le_of_not_lt hge)] at hxi
      exact Bool.false_ne_true hxi
    have hg : g.testBit i = false := testBit_of_and_eq_zero h i hxi
    simp [hg, hi]

theorem and_compl_of_subset (g M : Nat) (hg : g < 2 ^ 32) (h : g &&& M = g) :
    g &&& (0xFFFFFFFF ^^^ M) = 0 := by
  apply Nat.eq_of_testBit_eq; intro i
  simp only [Nat.testBit_land, Nat.testBit_xor, testBit_mask32, Nat.zero_testBit]
  cases hgi : g.testBit i with
  | false => simp
  | true =>
    have hi : i < 32 := by
      by_contra hge
      rw [testBit_high g i hg (le_of_not_lt hge)] at hgi
      exact Bool.false_ne_true hgi
    have hM : M.testBit i = true := by
      have hb := congrArg (fun t => Nat.testBit t i) h
      simp only [Nat.testBit_land, hgi, Bool.true_and] at hb
      exact hb
    simp [hM, hi]

theorem compl_and_compl (a b : Nat) (ha : a < 2 ^ 32) (hb : b < 2 ^ 32) :
    (0xFFFFFFFF ^^^ a) &&& (0xFFFFFFFF ^^^ b) = 0xFFFFFFFF ^^^ (a ||| b) := by
  apply Nat.eq_of_testBit_eq; intro i
  simp only [Nat.testBit_land, Nat.testBit_xor, Nat.testBit_lor, testBit_mask32]
  by_cases hi : i < 32
  · simp only [hi, decide_True]
    cases h1 : a.testBit i <;> cases h2 : b.testBit i <;> simp
  · have h1 := testBit_high a i ha (le_of_not_lt hi)
    have h2 := testBit_high b i hb (le_of_not_lt hi)
    simp [hi, h1, h2]

theorem land_absorb (a b : Nat) : a &&& (a ||| b) = a := by
  apply Nat.eq_of_testBit_eq; intro i
  simp only [Nat.testBit_land, Nat.testBit_lor]
  cases h : a.testBit i <;> simp

theorem land_mono_or (a b c : Nat) (h : a &&& b = a) : a &&& (c ||| b) = a := by
  apply Nat.eq_of_testBit_eq; intro i
  have hbit := congrArg (fun t => Nat.testBit t i) h
  simp only [Nat.testBit_land] at hbit
  simp only [Nat.testBit_land, Nat.testBit_lor]
  cases ha : a.testBit i with
  | false => simp
  | true =>
    rw [ha, Bool.true_and] at hbit
    simp [hbit]

theorem and_mask32_of_lt (m : Nat) (hm : m < 2 ^ 32) : m &&& 0xFFFFFFFF = m := by
  have h : m &&& 0 = 0 := Nat.and_zero m
  have := and_compl_of_disjoint m 0 hm h
  simpa using this

/-! ### Fold lemmas for the matched-bit masks -/

theorem selFold_acc (sel : Nat × Nat → Nat) (m : Nat) :
    ∀ (l : List (Nat × Nat)) (a : Nat), selFold sel m l a = a ||| selFold sel m l 0 := by
  intro l
  induction l with
  | nil => intro a; simp [selFold]
  | cons e t IH =>
    intro a
    have h1 : selFold sel m (e :: t) a
        = selFold sel m t (if m &&& e.1 = e.1 then a ||| sel e else a) := rfl
    have h2 : selFold sel m (e :: t) 0
        = selFold sel m t (if m &&& e.1 = e.1 then 0 ||| sel e else 0) := rfl
    rw [h1, h2, IH, IH (if m &&& e.1 = e.1 then 0 ||| sel e else 0)]
    by_cases hc : m &&& e.1 = e.1 <;> simp [hc, Nat.or_assoc]

theorem selFold_cons (sel : Nat × Nat → Nat) (m : Nat) (e : Nat × Nat) (t : List (Nat × Nat)) :
    selFold sel m (e :: t) 0
      = (if m &&& e.1 = e.1 then sel e else 0) ||| selFold sel m t 0 := by
  have h1 : selFold sel m (e :: t) 0
      = selFold sel m t (if m &&& e.1 = e.1 then 0 ||| sel e else 0) := rfl
  rw [h1, selFold_acc]
  by_cases hc : m &&& e.1 = e.1 <;> simp [hc]

theorem selFold_disj (sel : Nat × Nat → Nat) (m x : Nat) :
    ∀ l : List (Nat × Nat), (∀ e ∈ l, m &&& e.1 = e.1 → x &&& sel e = 0) →
      x &&& selFold sel m l 0 = 0 := by
  intro l
  induction l with
  | nil => intro _; simp [selFold]
  | cons e t IH =>
    intro h
    rw [selFold_cons, and_or_left, IH (fun e' he' hc => h e' (List.mem_cons_of_mem e he') hc),
      Nat.or_zero]
    by_cases hc : m &&& e.1 = e.1
    · simp only [hc, if_true]
      exact h e (List.mem_cons_self e t) hc
    · simp [hc]

theorem selFold_lt (sel : Nat × Nat → Nat) (m : Nat) :
    ∀ l : List (Nat × Nat), (∀ e ∈ l, sel e < 2 ^ 32) → selFold sel m l 0 < 2 ^ 32 := by
  intro l
  induction l with
  | nil => intro _; simp [selFold]
  | cons e t IH =>
    intro h
    rw [selFold_cons]
    apply Nat.or_lt_two_pow
    · by_cases hc : m &&& e.1 = e.1
      · simpa [hc] using h e (List.mem_cons_self e t)
      · simp [hc]
    · exact IH (fun e' he' => h e' (List.mem_cons_of_mem e he'))

theorem selFold_congr (sel : Nat × Nat → Nat) (m₁ m₂ : Nat) :
    ∀ (l : List (Nat × Nat)), (∀ e ∈ l, m₁ &&& e.1 = m₂ &&& e.1) →
      selFold sel m₁ l 0 = selFold sel m₂ l 0 := by
  intro l
  induction l with
  | nil => intro _; rfl
  | cons e t IH =>
    intro h
    rw [selFold_cons, selFold_cons, IH (fun e' he' => h e' (List.mem_cons_of_mem e he')),
      h e (List.mem_cons_self e t)]

theorem gMask_subset (m : Nat) :
    ∀ l : List (Nat × Nat), ∀ e ∈ l, m &&& e.1 = e.1 →
      e.1 &&& selFold Prod.fst m l 0 = e.1 := by
  intro l
  induction l with
  | nil => intro e he; exact absurd he (List.not_mem_nil e)
  | cons e' t IH =>
    intro e he hc
    rw [selFold_cons]
    rcases List.mem_cons.mp he with heq | hmem
    · subst heq
      rw [if_pos hc]
      exact land_absorb e.1 (selFold Prod.fst m t 0)
    · exact land_mono_or e.1 (selFold Prod.fst m t 0) _ (IH e hmem hc)

theorem tableOK_mem : ∀ l : List (Nat × Nat), tableOK l → ∀ e ∈ l, entryOK e := by
  intro l
  induction l with
  | nil => intro _ e he; exact absurd he (List.not_mem_nil e)
  | cons e' t IH =>
    intro hok e he
    rcases List.mem_cons.mp he with heq | hmem
    · subst heq; exact hok.1
    · exact IH hok.2.2 e hmem

/-! ### The `jsMode` closed form -/

theorem jsModeWith_closed :
    ∀ l : List (Nat × Nat), tableOK l → ∀ m : Nat, m < 2 ^ 32 →
      jsModeWith l m
        = (m &&& (0xFFFFFFFF ^^^ selFold Prod.fst m l 0)) ||| selFold Prod.snd m l 0 := by
  intro l
  induction l with
  | nil =>
    intro _ m hm
    show m = (m &&& (0xFFFFFFFF ^^^ 0)) ||| 0
    rw [Nat.xor_zero, and_mask32_of_lt m hm, Nat.or_zero]
  | cons e t IH =>
    intro hok m hm
    obtain ⟨he, hrel, ht⟩ := hok
    obtain ⟨hgpos, hglt, hjlt, hjg⟩ := he
    have hstep : jsModeWith (e :: t) m = jsModeWith t (jsModeStep m e) := rfl
    by_cases hc : m &&& e.1 = e.1
    · have hstepv : jsModeStep m e = (m &&& (0xFFFFFFFF ^^^ e.1)) ||| e.2 := by
        simp [jsModeStep, hc]
      have hm'lt : (m &&& (0xFFFFFFFF ^^^ e.1)) ||| e.2 < 2 ^ 32 :=
        Nat.or_lt_two_pow (lt_of_le_of_lt Nat.and_le_left hm) hjlt
      have htests : ∀ e' ∈ t,
          ((m &&& (0xFFFFFFFF ^^^ e.1)) ||| e.2) &&& e'.1 = m &&& e'.1 := by
        intro e' he'
        obtain ⟨hgg', hjg', _⟩ := hrel e' he'
        have he'ok : entryOK e' := tableOK_mem t ht e' he'
        have h1 : (0xFFFFFFFF ^^^ e.1) &&& e'.1 = e'.1 := by
          rw [Nat.and_comm]
          exact and_compl_of_disjoint e'.1 e.1 he'ok.2.1 (by rw [Nat.and_comm]; exact hgg')
        rw [and_or_right, Nat.and_assoc, h1, hjg', Nat.or_zero]
      have hM : selFold Prod.fst ((m &&& (0xFFFFFFFF ^^^ e.1)) ||| e.2) t 0
          = selFold Prod.fst m t 0 := selFold_congr _ _ _ t htests
      have hJ : selFold Prod.snd ((m &&& (0xFFFFFFFF ^^^ e.1)) ||| e.2) t 0
          = selFold Prod.snd m t 0 := selFold_congr _ _ _ t htests
      have hMlt : selFold Prod.fst m t 0 < 2 ^ 32 :=
        selFold_lt _ _ t (fun e' he' => (tableOK_mem t ht e' he').2.1)
      have hjM : e.2 &&& selFold Prod.fst m t 0 = 0 :=
        selFold_disj _ _ _ t (fun e' he' _ => (hrel e' he').2.1)
      rw [hstep, hstepv, IH ht _ hm'lt, hM, hJ, selFold_cons, selFold_cons, if_pos hc,
        if_pos hc]
      rw [and_or_right, Nat.and_assoc,
        compl_and_compl e.1 (selFold Prod.fst m t 0) hglt hMlt,
        and_compl_of_disjoint e.2 (selFold Prod.fst m t 0) hjlt hjM, Nat.or_assoc]
    · have hstepv : jsModeStep m e = m := by simp [jsModeStep, hc]
      rw [hstep, hstepv, IH ht m hm, selFold_cons, selFold_cons, if_neg hc, if_neg hc,
        Nat.zero_or, Nat.zero_or]

theorem tableOK_mb : tableOK modeBitTranslation := by
  simp only [tableOK, entryOK, modeBitTranslation, ModeDir, ModeCharDevice, ModeNamedPipe,
    ModeSymlink, ModeSocket, S_IFDIR, S_IFCHR, S_IFIFO, S_IFLNK, S_IFSOCK]
  decide

theorem jsMode_closed (m : Nat) (hm : m < 2 ^ 32) : jsMode m = jsModeSpecVal m :=
  jsModeWith_closed modeBitTranslation tableOK_mb m hm

theorem jsModeWith_no_match :
    ∀ (l : List (Nat × Nat)) (m : Nat), (∀ e ∈ l, ¬m &&& e.1 = e.1) → jsModeWith l m = m := by
  intro l
  induction l with
  | nil => intro m _; rfl
  | cons e t IH =>
    intro m h
    have hstep : jsModeWith (e :: t) m = jsModeWith t (jsModeStep m e) := rfl
    have hstepv : jsModeStep m e = m := by
      simp [jsModeStep, h e (List.mem_cons_self e t)]
    rw [hstep, hstepv]
    exact IH m (fun e' he' => h e' (List.mem_cons_of_mem e he'))

theorem jsMode_fixes (m : Nat) (hm : m < 2 ^ 32) :
    ∀ e ∈ modeBitTranslation, ¬jsMode m &&& e.1 = e.1 := by
  intro e he
  have heok : entryOK e := tableOK_mem modeBitTranslation tableOK_mb e he
  have hpairJ : ∀ x ∈ modeBitTranslation, ∀ y ∈ modeBitTranslation, x.2 &&& y.1 = 0 := by
    decide
  have hpairG : ∀ x ∈ modeBitTranslation, ∀ y ∈ modeBitTranslation,
      x = y ∨ x.1 &&& y.1 = 0 := by decide
  rw [jsMode_closed m hm]
  show ¬((m &&& (0xFFFFFFFF ^^^ selFold Prod.fst m modeBitTranslation 0)) |||
      selFold Prod.snd m modeBitTranslation 0) &&& e.1 = e.1
  have hJg : selFold Prod.snd m modeBitTranslation 0 &&& e.1 = 0 := by
    rw [Nat.and_comm]
    refine selFold_disj _ _ _ _ (fun e' he' _ => ?_)
    rw [Nat.and_comm]
    exact hpairJ e' he' e he
  rw [and_or_right, hJg, Nat.or_zero, Nat.and_assoc]
  by_cases hc : m &&& e.1 = e.1
  · have hsub : e.1 &&& selFold Prod.fst m modeBitTranslation 0 = e.1 :=
      gMask_subset m modeBitTranslation e he hc
    have hz : (0xFFFFFFFF ^^^ selFold Prod.fst m modeBitTranslation 0) &&& e.1 = 0 := by
      rw [Nat.and_comm]
      exact and_compl_of_subset e.1 _ heok.2.1 hsub
    rw [hz, Nat.and_zero]
    exact fun hcon => absurd hcon.symm (ne_of_gt heok.1)
  · have hdis : e.1 &&& selFold Prod.fst m modeBitTranslation 0 = 0 := by
      refine selFold_disj _ _ _ _ (fun e' he' htest => ?_)
      rcases hpairG e he e' he' with heq | hdj
      · exact absurd htest (heq ▸ hc)
      · exact hdj
    have h1 : (0xFFFFFFFF ^^^ selFold Prod.fst m modeBitTranslation 0) &&& e.1 = e.1 := by
      rw [Nat.and_comm]
      exact and_compl_of_disjoint e.1 _ heok.2.1 hdis
    rw [h1]
    exact hc

theorem jsMode_idem (m : Nat) (hm : m < 2 ^ 32) : jsMode (jsMode m) = jsMode m :=
  jsModeWith_no_match modeBitTranslation (jsMode m) (jsMode_fixes m hm)

/-! ### Claim C4 -/

/-- C4: for every 32-bit FileMode value, `jsMode` returns the input bits with
each recognized host type bit rewritten to its POSIX `S_IF*` equivalent and
all other bits (permission bits included) passed through unchanged
(`jsModeSpecVal`), and `jsMode` is idempotent: none of an already-translated
value's bits are in the translation table's domain, so re-translating changes
nothing. -/
theorem jsMode_translates_and_idem (m : Nat) (hm : m < 2 ^ 32) :
    jsMode m = jsModeSpecVal m ∧ jsMode (jsMode m) = jsMode m :=
  ⟨jsMode_closed m hm, jsMode_idem m hm⟩

/-- Witness for C4: a directory mode with permission bits `0o755`. -/
theorem jsMode_translates_and_idem_witness :
    jsMode 0x800001ED = jsModeSpecVal 0x800001ED ∧
      jsMode (jsMode 0x800001ED) = jsMode 0x800001ED :=
  jsMode_translates_and_idem 0x800001ED (by norm_num)

/-! ### Claim C10 -/

theorem jsModeStep_comm_of (e e' : Nat × Nat) (he : entryOK e) (he' : entryOK e')
    (hgg : e.1 &&& e'.1 = 0) (hje : e.2 &&& e'.1 = 0) (hj'e : e'.2 &&& e.1 = 0) (z : Nat) :
    jsModeStep (jsModeStep z e) e' = jsModeStep (jsModeStep z e') e := by
  have pres : ∀ g j g' : Nat, j &&& g' = 0 → g' &&& g = 0 → g' < 2 ^ 32 →
      ∀ w : Nat, ((w &&& (0xFFFFFFFF ^^^ g)) ||| j) &&& g' = w &&& g' := by
    intro g j g' hj hgg' hlt w
    rw [and_or_right, hj, Nat.or_zero, Nat.and_assoc,
      Nat.and_comm (0xFFFFFFFF ^^^ g) g', and_compl_of_disjoint g' g hlt hgg']
  have hgg' : e'.1 &&& e.1 = 0 := by rw [Nat.and_comm]; exact hgg
  by_cases hc : z &&& e.1 = e.1 <;> by_cases hc' : z &&& e'.1 = e'.1
  · -- both matched
    have h1 : jsModeStep z e = (z &&& (0xFFFFFFFF ^^^ e.1)) ||| e.2 := by
      simp [jsModeStep, hc]
    have h2 : jsModeStep z e' = (z &&& (0xFFFFFFFF ^^^ e'.1)) ||| e'.2 := by
      simp [jsModeStep, hc']
    have ht1 : ((z &&& (0xFFFFFFFF ^^^ e.1)) ||| e.2) &&& e'.1 = e'.1 := by
      rw [pres e.1 e.2 e'.1 hje hgg' he'.2.1 z]; exact hc'
    have ht2 : ((z &&& (0xFFFFFFFF ^^^ e'.1)) ||| e'.2) &&& e.1 = e.1 := by
      rw [pres e'.1 e'.2 e.1 hj'e hgg he.2.1 z]; exact hc
    rw [h1, h2, jsModeStep, if_pos ht1, jsModeStep, if_pos ht2]
    rw [and_or_right, and_or_right, Nat.and_assoc, Nat.and_assoc,
      and_compl_of_disjoint e.2 e'.1 he.2.2.1 hje,
      and_compl_of_disjoint e'.2 e.1 he'.2.2.1 hj'e,
      Nat.and_comm (0xFFFFFFFF ^^^ e.1) (0xFFFFFFFF ^^^ e'.1)]
    rw [Nat.or_assoc, Nat.or_assoc, Nat.or_comm e.2 e'.2]
  · -- only e matched
    have h1 : jsModeStep z e = (z &&& (0xFFFFFFFF ^^^ e.1)) ||| e.2 := by
      simp [jsModeStep, hc]
    have h2 : jsModeStep z e' = z := by simp [jsModeStep, hc']
    have ht1 : ¬((z &&& (0xFFFFFFFF ^^^ e.1)) ||| e.2) &&& e'.1 = e'.1 := by
      rw [pres e.1 e.2 e'.1 hje hgg' he'.2.1 z]; exact hc'
    rw [h1, h2, jsModeStep, if_neg ht1, jsModeStep, if_pos hc]
  · -- only e' matched
    have h1 : jsModeStep z e = z := by simp [jsModeStep, hc]
    have h2 : jsModeStep z e' = (z &&& (0xFFFFFFFF ^^^ e'.1)) ||| e'.2 := by
      simp [jsModeStep, hc']
    have ht2 : ¬((z &&& (0xFFFFFFFF ^^^ e'.1)) ||| e'.2) &&& e.1 = e.1 := by
      rw [pres e'.1 e'.2 e.1 hj'e hgg he.2.1 z]; exact hc
    rw [h1, h2, jsModeStep, if_neg ht2]
  · -- neither matched
    have h1 : jsModeStep z e = z := by simp [jsModeStep, hc]
    have h2 : jsModeStep z e' = z := by simp [jsModeStep, hc']
    rw [h1, h2, h1]

/-- C10: `jsMode` is deterministic in the face of Go's unspecified map
iteration order: any visit order of the translation table yields the same
result, because distinct go bits are pairwise disjoint and no JS replacement
bit overlaps any go bit, so the per-entry rewrites commute. -/
theorem jsMode_order_independent (l : List (Nat × Nat))
    (hl : l.Perm modeBitTranslation) (m : Nat) : jsModeWith l m = jsMode m := by
  have hfacts : ∀ x ∈ modeBitTranslation, ∀ y ∈ modeBitTranslation,
      (0 < x.1 ∧ x.1 < 2 ^ 32 ∧ x.2 < 2 ^ 32 ∧ x.2 &&& x.1 = 0) ∧
        (x = y ∨ x.1 &&& y.1 = 0 ∧ x.2 &&& y.1 = 0 ∧ y.2 &&& x.1 = 0) := by decide
  refine hl.foldl_eq' (fun x hx y hy z => ?_) m
  have hx' : x ∈ modeBitTranslation := hl.subset hx
  have hy' : y ∈ modeBitTranslation := hl.subset hy
  rcases (hfacts x hx' y hy').2 with heq | ⟨h1, h2, h3⟩
  · rw [heq]
  · exact jsModeStep_comm_of x y (hfacts x hx' x hx').1 (hfacts y hy' y hy').1 h1 h2 h3 z

/-- Witness for C10: visiting the table in reversed order agrees with the
source order on a directory mode. -/
theorem jsMode_order_independent_witness :
    jsModeWith [(ModeSocket, S_IFSOCK), (ModeSymlink, S_IFLNK), (ModeNamedPipe, S_IFIFO),
      (ModeCharDevice, S_IFCHR), (ModeDir, S_IFDIR)] 0x800001ED = jsMode 0x800001ED :=
  jsMode_order_independent
    [(ModeSocket, S_IFSOCK), (ModeSymlink, S_IFLNK), (ModeNamedPipe, S_IFIFO),
      (ModeCharDevice, S_IFCHR), (ModeDir, S_IFDIR)] (by decide) 0x800001ED

/-! ### Claim C5 -/

/-- C5: `blockCount(size, blockSize)` equals the rational ceiling of
`size / blockSize` for all non-negative sizes and positive block sizes,
with `size = 0` giving `0` and an exactly divisible size giving
`size / blockSize`. -/
theorem blockCount_ceil (size blockSize : Int) (h0 : 0 ≤ size) (hpos : 0 < blockSize) :
    blockCount size blockSize = ⌈(size : ℚ) / (blockSize : ℚ)⌉ ∧
    (size = 0 → blockCount size blockSize = 0) ∧
    (blockSize ∣ size → blockCount size blockSize = size / blockSize) := by
  have hbne : blockSize ≠ 0 := ne_of_gt hpos
  have htd : size.tdiv blockSize = size / blockSize := Int.tdiv_eq_ediv h0 (le_of_lt hpos)
  have htm : size.tmod blockSize = size % blockSize := Int.tmod_eq_emod h0 (le_of_lt hpos)
  have hbc : blockCount size blockSize
      = if size % blockSize > 0 then size / blockSize + 1 else size / blockSize := by
    simp only [blockCount, htd, htm]
  have hmod0 : 0 ≤ size % blockSize := Int.emod_nonneg size hbne
  have hmodlt : size % blockSize < blockSize := Int.emod_lt_of_pos size hpos
  have hdm : blockSize * (size / blockSize) + size % blockSize = size :=
    Int.ediv_add_emod size blockSize
  have hbq : (0 : ℚ) < (blockSize : ℚ) := by exact_mod_cast hpos
  have hdmq : (blockSize : ℚ) * ((size / blockSize : Int) : ℚ) + ((size % blockSize : Int) : ℚ)
      = (size : ℚ) := by exact_mod_cast hdm
  have hmodltq : ((size % blockSize : Int) : ℚ) < (blockSize : ℚ) := by exact_mod_cast hmodlt
  refine ⟨?_, ?_, ?_⟩
  · rw [hbc]
    by_cases hr : size % blockSize > 0
    · rw [if_pos hr]
      have hrq : (0 : ℚ) < ((size % blockSize : Int) : ℚ) := by exact_mod_cast hr
      symm
      rw [Int.ceil_eq_iff]
      constructor
      · push_cast
        rw [lt_div_iff₀ hbq]
        nlinarith [hdmq, hrq]
      · rw [div_le_iff₀ hbq]
        push_cast
        nlinarith [hdmq, hmodltq]
    · rw [if_neg hr]
      have hr0 : size % blockSize = 0 := le_antisymm (not_lt.mp hr) hmod0
      have hr0q : ((size % blockSize : Int) : ℚ) = 0 := by exact_mod_cast hr0
      symm
      rw [Int.ceil_eq_iff]
      constructor
      · rw [lt_div_iff₀ hbq]
        nlinarith [hdmq, hr0q, hbq]
      · rw [div_le_iff₀ hbq]
        nlinarith [hdmq, hr0q]
  · intro h0'
    subst h0'
    simp [blockCount, Int.zero_tdiv, Int.zero_tmod]
  · intro hdvd
    rw [hbc]
    have hz : size % blockSize = 0 := Int.emod_eq_zero_of_dvd hdvd
    rw [hz]
    simp

/-- Witness for C5: `blockCount 5 4 = 2 = ⌈5/4⌉` and `blockCount 8 4 = 2`. -/
theorem blockCount_ceil_witness :
    blockCount 5 4 = ⌈((5 : Int) : ℚ) / ((4 : Int) : ℚ)⌉ ∧ blockCount 8 4 = 8 / 4 :=
  ⟨(blockCount_ceil 5 4 (by norm_num) (by norm_num)).1,
   (blockCount_ceil 8 4 (by norm_num) (by norm_num)).2.2 (by norm_num)⟩

/-! ### Claim C6 -/

/-- C6 counterexample: for a pre-1970 modification time (`UnixNano = -1`) the
projected timestamp is the toward-zero quotient `0`, not the floor
`-1 = (-1).fdiv 1000000` that the claim's "integer division (floor)"
prescribes. -/
theorem jsStat_times_not_floor :
    getProp (jsStatProps ⟨0, 0, -1, false⟩) "atimeMs" = some (JSValue.int 0) ∧
    Int.fdiv (-1) 1000000 = -1 ∧
    getProp (jsStatProps ⟨0, 0, -1, false⟩) "atimeMs"
      ≠ some (JSValue.int (Int.fdiv (-1) 1000000)) := by
  refine ⟨rfl, by decide, ?_⟩
  intro h
  rw [show getProp (jsStatProps ⟨0, 0, -1, false⟩) "atimeMs" = some (JSValue.int 0) from rfl,
    show Int.fdiv (-1) 1000000 = -1 from by decide] at h
  have h1 : JSValue.int 0 = JSValue.int (-1) := Option.some.inj h
  have h2 : (0 : Int) = -1 := by injection h1
  exact absurd h2 (by decide)

/-- C6 (amended): the projector sets `atimeMs`, `mtimeMs` and `ctimeMs` all to
the same value — the modification time converted from nanoseconds to
milliseconds by integer division truncating toward zero, which agrees with
floor division exactly when the timestamp is non-negative. -/
theorem jsStat_times (info : FileInfo) :
    getProp (jsStatProps info) "atimeMs"
        = some (JSValue.int (info.modTimeUnixNano.tdiv 1000000)) ∧
    getProp (jsStatProps info) "mtimeMs"
        = some (JSValue.int (info.modTimeUnixNano.tdiv 1000000)) ∧
    getProp (jsStatProps info) "ctimeMs"
        = some (JSValue.int (info.modTimeUnixNano.tdiv 1000000)) ∧
    (0 ≤ info.modTimeUnixNano →
      info.modTimeUnixNano.tdiv 1000000 = info.modTimeUnixNano.fdiv 1000000) := by
  refine ⟨rfl, rfl, rfl, fun h => ?_⟩
  rw [Int.tdiv_eq_ediv h (by norm_num), Int.fdiv_eq_ediv _ (by norm_num)]

/-- Witness for C6 (amended): a file modified 5ms after the epoch. -/
theorem jsStat_times_witness :
    getProp (jsStatProps ⟨0, 0, 5000000, false⟩) "atimeMs"
        = some (JSValue.int ((5000000 : Int).tdiv 1000000)) ∧
    (5000000 : Int).tdiv 1000000 = (5000000 : Int).fdiv 1000000 :=
  ⟨(jsStat_times ⟨0, 0, 5000000, false⟩).1,
   (jsStat_times ⟨0, 0, 5000000, false⟩).2.2.2 (by norm_num)⟩

/-! ### Claim C7 -/

/-- C7 counterexample: the stat property bag has 20 field names, not the 18
the claim states. -/
theorem jsStat_vocabulary_not_18 :
    ((jsStatProps ⟨0, 0, 0, false⟩).map Prod.fst).length = 20 ∧
    ((jsStatProps ⟨0, 0, 0, false⟩).map Prod.fst).length ≠ 18 := by
  exact ⟨rfl, by decide⟩

/-- C7 (amended): every property bag produced by the stat projector for
non-nil metadata carries exactly the same fixed vocabulary of 20 field names,
no more and no fewer, for every input. -/
theorem jsStat_fixed_vocabulary (info : FileInfo) :
    (jsStatProps info).map Prod.fst = statFieldNames ∧ statFieldNames.length = 20 :=
  ⟨rfl, rfl⟩

/-! ### Claim C8 -/

/-- C8: `jsStat` applied to the nil metadata sentinel returns explicit absence
(`none`), never a bag of zeroed dummy fields. -/
theorem jsStat_nil_absent : jsStat none = none := rfl

/-! ### Claim C9 -/

theorem and_through (m t x : Nat) (h : t &&& x = x) : (m &&& t) &&& x = m &&& x := by
  rw [Nat.and_assoc, h]

/-- C9: for well-formed metadata (`IsDir()` agreeing with the mode bits) whose
type is exactly one of regular file, directory, or symlink, exactly one of the
`isDirectory`/`isFile`/`isSymbolicLink` fields is the true-returning function
singleton, and `isBlockDevice`, `isCharacterDevice`, `isFIFO`, `isSocket` are
always the false-returning singleton. -/
theorem jsStat_predicates (info : FileInfo)
    (hwf : info.isDir = fileModeIsDir info.mode)
    (htype : info.mode &&& ModeType = 0 ∨ info.mode &&& ModeType = ModeDir ∨
      info.mode &&& ModeType = ModeSymlink) :
    getProp (jsStatProps info) "isBlockDevice" = some (jsBoolFunc false) ∧
    getProp (jsStatProps info) "isCharacterDevice" = some (jsBoolFunc false) ∧
    getProp (jsStatProps info) "isFIFO" = some (jsBoolFunc false) ∧
    getProp (jsStatProps info) "isSocket" = some (jsBoolFunc false) ∧
    getProp (jsStatProps info) "isDirectory" = some (jsBoolFunc info.isDir) ∧
    getProp (jsStatProps info) "isFile"
        = some (jsBoolFunc (fileModeIsRegular info.mode)) ∧
    getProp (jsStatProps info) "isSymbolicLink"
        = some (jsBoolFunc (decide (info.mode &&& ModeSymlink = ModeSymlink))) ∧
    info.isDir.toNat + (fileModeIsRegular info.mode).toNat +
        (decide (info.mode &&& ModeSymlink = ModeSymlink)).toNat = 1 := by
  refine ⟨rfl, rfl, rfl, rfl, rfl, rfl, rfl, ?_⟩
  rw [hwf]
  rcases htype with h | h | h
  · have hdir : info.mode &&& ModeDir = 0 := by
      rw [← and_through info.mode ModeType ModeDir (by decide), h, Nat.zero_and]
    have hsym : info.mode &&& ModeSymlink = 0 := by
      rw [← and_through info.mode ModeType ModeSymlink (by decide), h, Nat.zero_and]
    simp only [fileModeIsDir, fileModeIsRegular, hdir, hsym, h]
    decide
  · have hdir : info.mode &&& ModeDir = ModeDir := by
      rw [← and_through info.mode ModeType ModeDir (by decide), h]
      decide
    have hsym : info.mode &&& ModeSymlink = 0 := by
      rw [← and_through info.mode ModeType ModeSymlink (by decide), h]
      decide
    simp only [fileModeIsDir, fileModeIsRegular, hdir, hsym, h]
    decide
  · have hdir : info.mode &&& ModeDir = 0 := by
      rw [← and_through info.mode ModeType ModeDir (by decide), h]
      decide
    have hsym : info.mode &&& ModeSymlink = ModeSymlink := by
      rw [← and_through info.mode ModeType ModeSymlink (by decide), h]
      decide
    simp only [fileModeIsDir, fileModeIsRegular, hdir, hsym, h]
    decide

/-- Witness for C9: a directory with mode `ModeDir ||| 0o755`. -/
theorem jsStat_predicates_witness :
    getProp (jsStatProps ⟨0, 0x800001ED, 0, true⟩) "isDirectory"
        = some (jsBoolFunc true) ∧
    (true : Bool).toNat + (fileModeIsRegular 0x800001ED).toNat +
        (decide ((0x800001ED : Nat) &&& ModeSymlink = ModeSymlink)).toNat = 1 :=
  ⟨(jsStat_predicates ⟨0, 0x800001ED, 0, true⟩ (by decide) (by decide)).2.2.2.2.1,
   (jsStat_predicates ⟨0, 0x800001ED, 0, true⟩ (by decide) (by decide)).2.2.2.2.2.2.2⟩

/-! ### Claim C3 -/

/-- C3: for every invocation of the chmod or stat bridge callable with a wrong
argument count or a wrongly typed argument (path not a string, chmod mode not
an int, callback not callable), the diagnostic sink receives exactly one
message and the callback is never invoked. -/
theorem fs_bridge_invalid_args (hfs : HostFSModel) (args : List JSValue) :
    (¬validChmodArgs args →
      (fsChmodFn hfs args).errs.length = 1 ∧ (fsChmodFn hfs args).calls = []) ∧
    (¬validStatArgs args →
      (fsStatFn hfs args).errs.length = 1 ∧ (fsStatFn hfs args).calls = []) := by
  constructor
  · intro hinv
    rcases args with _ | ⟨a0, args1⟩
    · exact ⟨rfl, rfl⟩
    rcases args1 with _ | ⟨a1, args2⟩
    · exact ⟨rfl, rfl⟩
    rcases args2 with _ | ⟨a2, args3⟩
    · exact ⟨rfl, rfl⟩
    rcases args3 with _ | ⟨a3, rest⟩
    · cases a0
      case str p =>
        cases a1
        case int m =>
          by_cases hfn : isJSFunction a2 = true
          · exact absurd ⟨p, m, a2, rfl, hfn⟩ hinv
          · refine ⟨?_, ?_⟩ <;> simp [fsChmodFn, hfn]
        all_goals exact ⟨rfl, rfl⟩
      all_goals exact ⟨rfl, rfl⟩
    · exact ⟨rfl, rfl⟩
  · intro hinv
    rcases args with _ | ⟨a0, args1⟩
    · exact ⟨rfl, rfl⟩
    rcases args1 with _ | ⟨a1, args2⟩
    · exact ⟨rfl, rfl⟩
    rcases args2 with _ | ⟨a2, rest⟩
    · cases a0
      case str p =>
        by_cases hfn : isJSFunction a1 = true
        · exact absurd ⟨p, a1, rfl, hfn⟩ hinv
        · refine ⟨?_, ?_⟩ <;> simp [fsStatFn, hfn]
      all_goals exact ⟨rfl, rfl⟩
    · exact ⟨rfl, rfl⟩

/-- Witness for C3: `stat` invoked with one argument and `chmod` invoked with
a non-string path. -/
theorem fs_bridge_invalid_args_witness :
    ((fsStatFn okFS [JSValue.str "/x"]).errs.length = 1 ∧
      (fsStatFn okFS [JSValue.str "/x"]).calls = []) ∧
    ((fsChmodFn okFS [JSValue.int 0, JSValue.int 420, JSValue.fn 0]).errs.length = 1 ∧
      (fsChmodFn okFS [JSValue.int 0, JSValue.int 420, JSValue.fn 0]).calls = []) :=
  ⟨(fs_bridge_invalid_args okFS [JSValue.str "/x"]).2
      (by rintro ⟨p, cb, h, -⟩; exact List.noConfusion (List.cons.inj h).2),
   (fs_bridge_invalid_args okFS [JSValue.int 0, JSValue.int 420, JSValue.fn 0]).1
      (by rintro ⟨p, m, cb, h, -⟩; exact JSValue.noConfusion (List.cons.inj h).1)⟩

/-! ### Claim C1 -/

/-- C1 counterexample: with valid arguments and a failing host filesystem,
neither bridge invokes the callback at all — `chmod` logs and returns the
error response as the host function's return value, and `stat` returns it
without even logging — refuting "the callback is invoked exactly once ...
with the ErrorResponse" on the failure path. -/
theorem fs_bridge_failure_no_callback :
    (fsChmodFn permFS [JSValue.str "/tmp/x", JSValue.int 420, JSValue.fn 0]).calls = [] ∧
    (fsStatFn permFS [JSValue.str "/tmp/x", JSValue.fn 0]).calls = [] ∧
    (fsStatFn permFS [JSValue.str "/tmp/x", JSValue.fn 0]).errs = [] ∧
    (fsChmodFn permFS [JSValue.str "/tmp/x", JSValue.int 420, JSValue.fn 0]).ret
        = JSValue.arr (fsErrorResponse (GoError.errno 1)) ∧
    (fsStatFn permFS [JSValue.str "/tmp/x", JSValue.fn 0]).ret
        = JSValue.arr (fsErrorResponse (GoError.errno 1)) :=
  ⟨rfl, rfl, rfl, rfl, rfl⟩

/-- C1 (amended): for every invocation that passes validation: on `chmod`
success the callback is invoked exactly once with a single null argument; on
`stat` success it is invoked exactly once with the projected stat object as
sole argument; on underlying failure the callback is **not** invoked — the
bridge returns the translator's ErrorResponse as the host function's return
value, with `chmod` (but not `stat`) reporting the failure to the diagnostic
sink. -/
theorem fs_bridge_callback_contract (hfs : HostFSModel) (p : String) (m : Int)
    (cb : JSValue) (hcb : isJSFunction cb = true) :
    (hfs.chmod p (u32ofInt m) = none →
      fsChmodFn hfs [JSValue.str p, JSValue.int m, cb]
        = ⟨JSValue.null, [], [[JSValue.null]]⟩) ∧
    (∀ e, hfs.chmod p (u32ofInt m) = some e →
      fsChmodFn hfs [JSValue.str p, JSValue.int m, cb]
        = ⟨JSValue.arr (fsErrorResponse e), ["fs.chmod: " ++ e.errString], []⟩) ∧
    ((hfs.stat p).2 = none →
      fsStatFn hfs [JSValue.str p, cb]
        = ⟨JSValue.null, [], [[(jsStat (hfs.stat p).1).getD JSValue.null]]⟩) ∧
    (∀ e, (hfs.stat p).2 = some e →
      fsStatFn hfs [JSValue.str p, cb] = ⟨JSValue.arr (fsErrorResponse e), [], []⟩) := by
  refine ⟨fun h => ?_, fun e h => ?_, fun h => ?_, fun e h => ?_⟩ <;>
    simp [fsChmodFn, fsStatFn, hcb, h]

/-- Witness for C1 (amended): a chmod that succeeds invokes its callback once
with `[null]`. -/
theorem fs_bridge_callback_contract_witness :
    fsChmodFn okFS [JSValue.str "/tmp/x", JSValue.int 420, JSValue.fn 0]
      = ⟨JSValue.null, [], [[JSValue.null]]⟩ :=
  (fs_bridge_callback_contract okFS "/tmp/x" 420 (JSValue.fn 0) rfl).1 rfl

/-! ### Claim C2 -/

/-- C2 counterexample: a not-found error wrapped in two generic wrapping
layers is **not** classified as not-found by the shallow platform classifier,
so the translator emits the generic message bag instead of the `ENOENT`
response — refuting "regardless of how deeply it is wrapped". -/
theorem fsErrorResponse_deep_wrap_misses_enoent :
    osIsNotExist
        (GoError.wrapped "outer" (GoError.wrapped "inner" GoError.sentinelNotExist))
      = false ∧
    fsErrorResponse
        (GoError.wrapped "outer" (GoError.wrapped "inner" GoError.sentinelNotExist))
      = [JSValue.obj [("error", JSValue.str "inner: file does not exist")]] ∧
    fsErrorResponse
        (GoError.wrapped "outer" (GoError.wrapped "inner" GoError.sentinelNotExist))
      ≠ errorResponse eNOENT := by
  refine ⟨rfl, rfl, ?_⟩
  intro h
  rw [show fsErrorResponse
        (GoError.wrapped "outer" (GoError.wrapped "inner" GoError.sentinelNotExist))
      = [JSValue.obj [("error", JSValue.str "inner: file does not exist")]] from rfl] at h
  simp [errorResponse, eNOENT] at h

/-- C2 (amended): the translator is an ordered first-match cascade: an error
accepted by the platform's **shallow** not-exist classifier (which strips at
most one path-error layer and then requires the not-exist sentinel itself or
errno `ENOENT`) yields the `ENOENT` response; otherwise the error is unwrapped
exactly one level, a nonzero errno yields the response carrying that errno's
canonical symbolic name, and anything else yields a one-element sequence with
a bag whose `error` field holds the error's textual message. -/
theorem fsErrorResponse_cascade (e : GoError) :
    (osIsNotExist e = true → fsErrorResponse e = errorResponse eNOENT) ∧
    (osIsNotExist e = false → errnoCast ((errUnwrap e).getD e) ≠ 0 →
      fsErrorResponse e = errorResponse (errnoSymbol (errnoCast ((errUnwrap e).getD e)))) ∧
    (osIsNotExist e = false → errnoCast ((errUnwrap e).getD e) = 0 →
      fsErrorResponse e
        = [JSValue.obj [("error", JSValue.str ((errUnwrap e).getD e).errString)]]) ∧
    (osIsNotExist e = true ↔
      underlyingError e = GoError.sentinelNotExist ∨ underlyingError e = GoError.errno 2) := by
  refine ⟨fun h => ?_, fun h hn => ?_, fun h hn => ?_, ?_⟩
  · simp [fsErrorResponse, h]
  · simp [fsErrorResponse, h, hn]
  · simp [fsErrorResponse, h, hn]
  · unfold osIsNotExist
    cases h : underlyingError e <;> simp [h]

/-- Witness for C2 (amended): a path error wrapping `EACCES` is unwrapped once
and emits the `EACCES` symbol. -/
theorem fsErrorResponse_cascade_witness :
    fsErrorResponse (GoError.pathErr "chmod" "/x" (GoError.errno 13))
      = errorResponse "EACCES" :=
  (fsErrorResponse_cascade (GoError.pathErr "chmod" "/x" (GoError.errno 13))).2.1
    rfl (by decide)
